import Mathlib

/-!
Shallow embedding of `ratelimit_checker.py` (codex-ratelimit).

Modelling conventions:
* JSON values produced by `json.loads` are modelled by the inductive `JsonVal`;
  a physical log line is modelled by `Line`, recording the outcome of
  `line.strip()` / `json.loads(line)` (blank, JSON-decode failure, or a value).
* `datetime` instants are modelled as rationals (seconds on a global timeline);
  the external parser `datetime.fromisoformat` is an explicit parameter
  `iso : String → Option ℚ` (`none` models a raised `ValueError`).
* A Python exception that escapes a region of code is modelled by
  `Except.error ()`; `except`-handlers are modelled by matching on it.
* Python numeric fields are modelled as exact rationals; `bool` counts as a
  number (Python's `bool` is an `int` subclass), and arithmetic applied to a
  non-numeric JSON value is modelled as a hard failure.
-/

namespace Ratelimit

/-- Result of Python's `json.loads` on one line: the JSON data model. -/
inductive JsonVal where
  | null
  | bool (b : Bool)
  | num (q : ℚ)
  | str (s : String)
  | arr (elems : List JsonVal)
  | obj (fields : List (String × JsonVal))

/-- Python truthiness (`if v:`) for JSON-decoded values. -/
def truthy : JsonVal → Bool
  | .null => false
  | .bool b => b
  | .num q => q != 0
  | .str s => !s.isEmpty
  | .arr xs => !xs.isEmpty
  | .obj fs => !fs.isEmpty

/-- Dictionary lookup on a JSON object's field list (`json.loads` yields
unique keys, so first-match lookup is the dict semantics). -/
def jlookup (fs : List (String × JsonVal)) (k : String) : Option JsonVal :=
  fs.lookup k

/-- Python `v.get(k)`: raises `AttributeError` (modelled `.error ()`) unless
`v` is a dict. -/
def jgetE (v : JsonVal) (k : String) : Except Unit (Option JsonVal) :=
  match v with
  | .obj fs => .ok (jlookup fs k)
  | _ => .error ()

/-- Python `v[k]` (string key): `KeyError` on a missing key, `TypeError` on a
non-dict — both modelled as `.error ()`. -/
def jindexE (v : JsonVal) (k : String) : Except Unit JsonVal :=
  match v with
  | .obj fs =>
    match jlookup fs k with
    | some w => .ok w
    | none => .error ()
  | _ => .error ()

/-- Reading a JSON value as a Python number for arithmetic; `bool` is an
`int` subclass, anything else raises (`TypeError`), modelled `.error ()`. -/
def asNum : JsonVal → Except Unit ℚ
  | .num q => .ok q
  | .bool b => .ok (if b then 1 else 0)
  | _ => .error ()

/-- `timestamp_str.replace('Z', '+00:00')`: the pattern is the single
character `Z`, so Python's substring replace is exactly a character-by-
character substitution. -/
def pyReplZ (s : String) : String :=
  String.mk (s.data.foldr
    (fun c acc =>
      if c = 'Z' then '+' :: '0' :: '0' :: ':' :: '0' :: '0' :: acc
      else c :: acc) [])

/-- One physical line of a rollout file, as seen after `line.strip()` and
`json.loads(line)`: blank/whitespace-only, JSON-decode failure
(`json.JSONDecodeError`), or a decoded JSON value. -/
inductive Line where
  | blank
  | malformed
  | json (v : JsonVal)

/-- `v == "lit"` in Python: only a string with the same content compares
equal to a string literal. -/
def eqStrLit (v : Option JsonVal) (lit : String) : Bool :=
  match v with
  | some (.str t) => t == lit
  | _ => false

/-- The extractor's running state: `(latest_timestamp, latest_record)` when a
qualifying record has been seen. -/
abbrev ExtState := Option (ℚ × JsonVal)

/-- `if latest_timestamp is None or timestamp > latest_timestamp:` update
all of `latest_timestamp` / `latest_record`. -/
def updExt (st : ExtState) (t : ℚ) (r : JsonVal) : ExtState :=
  match st with
  | none => some (t, r)
  | some (t₀, r₀) => if t > t₀ then some (t, r) else some (t₀, r₀)

/-- Body of the `for line in f` loop of `parse_session_file` on one line.
`.error ()` models an exception that the inner `except json.JSONDecodeError`
does not catch (e.g. `AttributeError` from `.get`/`.replace` on a non-dict /
non-string, or `ValueError` from `datetime.fromisoformat`): it escapes to the
file-level `except Exception`. -/
def procLine (iso : String → Option ℚ) (st : ExtState) : Line → Except Unit ExtState
  | .blank => .ok st
  | .malformed => .ok st
  | .json v =>
    match v with
    | .obj fs =>
      if eqStrLit (jlookup fs "type") "event_msg" then
        match (jlookup fs "payload").getD (.obj []) with
        | .obj pfs =>
          if eqStrLit (jlookup pfs "type") "token_count" then
            match jlookup fs "timestamp" with
            | some ts =>
              if truthy ts then
                match ts with
                | .str s =>
                  match iso (pyReplZ s) with
                  | some t => .ok (updExt st t (.obj fs))
                  | none => .error ()
                | _ => .error ()
              else .ok st
            | none => .ok st
          else .ok st
        | _ => .error ()
      else .ok st
    | _ => .error ()

/-- The `for line in f` loop of `parse_session_file`. -/
def procLines (iso : String → Option ℚ) : List Line → ExtState → Except Unit ExtState
  | [], st => .ok st
  | l :: ls, st =>
    match procLine iso st l with
    | .ok st' => procLines iso ls st'
    | .error e => .error e

/-- `parse_session_file`: the whole file body is wrapped in
`try ... except Exception: return None`; `content = .error ()` models an I/O
failure opening/reading the file. Returns the latest qualifying record. -/
def parse_session_file (iso : String → Option ℚ)
    (content : Except Unit (List Line)) : Option JsonVal :=
  match content with
  | .error _ => none
  | .ok lines =>
    match procLines iso lines none with
    | .error _ => none
    | .ok st => st.map (·.2)

/-- A rollout file as the locator sees it: its glob-reported path and the
outcome of opening/streaming it (`.error ()` = I/O failure). -/
structure RFile where
  path : String
  content : Except Unit (List Line)

/-- The filesystem as the locator consumes it: for each `days_back` value,
`none` when the date directory does not exist, otherwise the list of
`rollout-*.jsonl` files found by `glob` in that directory. -/
abbrev DayFS := ℕ → Option (List RFile)

/-- The locator's per-file step (lines 108–117): run `parse_session_file`,
re-read the record's `timestamp`, and if truthy re-parse it; yields the
candidate `(file_path, timestamp, record)`. An unparsable or non-string
truthy timestamp raises out of the locator (uncaught), modelled `.error ()`. -/
def fileCand (iso : String → Option ℚ) (f : RFile) :
    Except Unit (Option (String × ℚ × JsonVal)) :=
  match parse_session_file iso f.content with
  | none => .ok none
  | some r =>
    match r with
    | .obj rfs =>
      match jlookup rfs "timestamp" with
      | some ts =>
        if truthy ts then
          match ts with
          | .str s =>
            match iso (pyReplZ s) with
            | some t => .ok (some (f.path, t, r))
            | none => .error ()
          | _ => .error ()
        else .ok none
      | none => .ok none
    | _ => .error ()

/-- `if latest_timestamp is None or timestamp > latest_timestamp:` update
the locator's `(latest_file, latest_timestamp, latest_record)` triple. -/
def updLoc (st : Option (String × ℚ × JsonVal)) :
    Option (String × ℚ × JsonVal) → Option (String × ℚ × JsonVal)
  | none => st
  | some (p, t, r) =>
    match st with
    | none => some (p, t, r)
    | some (p₀, t₀, r₀) => if t > t₀ then some (p, t, r) else some (p₀, t₀, r₀)

/-- The `for file_path in files` loop of `find_latest_token_count_record`. -/
def procDayFiles (iso : String → Option ℚ) :
    List RFile → Option (String × ℚ × JsonVal) →
    Except Unit (Option (String × ℚ × JsonVal))
  | [], st => .ok st
  | f :: rest, st =>
    match fileCand iso f with
    | .ok c => procDayFiles iso rest (updLoc st c)
    | .error e => .error e

/-- The `for days_back in range(30)` loop: skip a missing date directory;
scan an existing one's files and, if any qualifying record was found that
day, return the best immediately. -/
def searchDays (iso : String → Option ℚ) (fs : DayFS) :
    List ℕ → Except Unit (Option (String × JsonVal))
  | [] => .ok none
  | d :: ds =>
    match fs d with
    | none => searchDays iso fs ds
    | some files =>
      match procDayFiles iso files none with
      | .error e => .error e
      | .ok none => searchDays iso fs ds
      | .ok (some (p, _, r)) => .ok (some (p, r))

/-- `find_latest_token_count_record`: search backwards for up to 30 days. -/
def find_latest_token_count_record (iso : String → Option ℚ) (fs : DayFS) :
    Except Unit (Option (String × JsonVal)) :=
  searchDays iso fs (List.range 30)

/-- What one day's scan contributes: `ok none` when the directory is missing
or none of its files yields a qualifying record. -/
def dayResult (iso : String → Option ℚ) (fs : DayFS) (d : ℕ) :
    Except Unit (Option (String × ℚ × JsonVal)) :=
  match fs d with
  | none => .ok none
  | some files => procDayFiles iso files none

/-- `datetime.fromisoformat(record['timestamp'].replace('Z', '+00:00'))`
(lines 210 and 502): `KeyError` on a missing key, `AttributeError` on a
non-string, `ValueError` from the parser — all modelled `.error ()`. -/
def recordTimestampE (iso : String → Option ℚ) (r : JsonVal) : Except Unit ℚ :=
  match r with
  | .obj rfs =>
    match jlookup rfs "timestamp" with
    | some (.str s) =>
      match iso (pyReplZ s) with
      | some t => .ok t
      | none => .error ()
    | some _ => .error ()
    | none => .error ()
  | _ => .error ()

/-- `calculate_reset_time`: reset instant and staleness flag. -/
def calculate_reset_time (now record_timestamp reset_in_seconds : ℚ) : ℚ × Bool :=
  let reset_time := record_timestamp + reset_in_seconds
  (reset_time, decide (reset_time < now))

/-- One processed rate-limit window, as stored in the `data` dict. -/
structure RLWindow where
  used_percent : ℚ
  time_percent : ℚ
  reset_time : ℚ
  outdated : Bool
  window_minutes : ℚ
  deriving DecidableEq

/-- The `primary`/`secondary` processing block of `get_rate_limit_data`
(lines 222–265; the two blocks are textually identical up to the
`window_minutes` default, passed here as `defWin`). The caller has already
checked the window value is truthy. -/
def process_window (iso : String → Option ℚ) (now record_timestamp : ℚ)
    (w : JsonVal) (defWin : ℚ) : Except Unit RLWindow := do
  let _ := iso
  let rsJ ← jgetE w "resets_in_seconds"
  let rs ← asNum (rsJ.getD (.num 0))
  let (reset_time, outdated) := calculate_reset_time now record_timestamp rs
  let wmJ ← jgetE w "window_minutes"
  let wm ← asNum (wmJ.getD (.num defWin))
  let window_seconds := wm * 60
  let time_percent : ℚ :=
    if outdated then 100
    else if window_seconds > 0 then ((window_seconds - rs) / window_seconds) * 100
    else 0
  let upJ ← jgetE w "used_percent"
  let up ← asNum (upJ.getD (.num 0))
  .ok { used_percent := up
        time_percent := max 0 (min 100 time_percent)
        reset_time := reset_time
        outdated := outdated
        window_minutes := wm }

/-- The structured `data` dict built by `get_rate_limit_data`. -/
structure RLData where
  file_path : String
  record_timestamp : ℚ
  current_time : ℚ
  total_usage : JsonVal
  last_usage : JsonVal
  primary : Option RLWindow
  secondary : Option RLWindow

/-- `get_rate_limit_data`: locate the latest record and build the display
data. A raised exception (missing required field, non-dict access, …)
propagates to the caller as `.error ()`; `ok none` is "no record found". -/
def get_rate_limit_data (iso : String → Option ℚ) (now : ℚ) (fs : DayFS) :
    Except Unit (Option RLData) := do
  let result ← find_latest_token_count_record iso fs
  match result with
  | none => .ok none
  | some (latest_file, record) =>
    let payload ← jindexE record "payload"
    let info ← jindexE payload "info"
    let rate_limitsO ← jgetE payload "rate_limits"
    let rate_limits := rate_limitsO.getD (.obj [])
    let record_timestamp ← recordTimestampE iso record
    let total_usage ← jindexE info "total_token_usage"
    let last_usage ← jindexE info "last_token_usage"
    let primaryO ← jgetE rate_limits "primary"
    let primaryJ := primaryO.getD (.obj [])
    let primary ← if truthy primaryJ then
        (process_window iso now record_timestamp primaryJ 299).map some
      else pure none
    let secondaryO ← jgetE rate_limits "secondary"
    let secondaryJ := secondaryO.getD (.obj [])
    let secondary ← if truthy secondaryJ then
        (process_window iso now record_timestamp secondaryJ 10079).map some
      else pure none
    .ok (some { file_path := latest_file
                record_timestamp := record_timestamp
                current_time := now
                total_usage := total_usage
                last_usage := last_usage
                primary := primary
                secondary := secondary })

def LABEL_AREA_WIDTH : ℕ := 12

def BAR_WIDTH : ℕ := 46

/-- Width of one character as `get_display_width` computes it. The external
classifier `unicodedata.category(char).startswith('M')` is the explicit
parameter `isMark`. -/
def char_width (isMark : Char → Bool) (c : Char) : ℕ :=
  if c = '█' ∨ c = '░' then 1
  else if isMark c then 0
  else 1

/-- `get_display_width`: sum of per-character widths. -/
def get_display_width (isMark : Char → Bool) (text : String) : ℕ :=
  (text.data.map (char_width isMark)).sum

/-- The character-accumulation loop of `pad_label_to_width`: returns the
kept characters and the final `current_width`. Zero-width characters are
always appended; a visible character that would push the running width past
the target breaks the loop. -/
def padScan (isMark : Char → Bool) (target : ℕ) :
    List Char → ℕ → List Char × ℕ
  | [], cw => ([], cw)
  | c :: rest, cw =>
    let w := char_width isMark c
    if w = 0 then
      (c :: (padScan isMark target rest cw).1, (padScan isMark target rest cw).2)
    else if cw + w > target then ([], cw)
    else
      (c :: (padScan isMark target rest (cw + w)).1,
        (padScan isMark target rest (cw + w)).2)

/-- `pad_label_to_width`: truncate, then right-pad with spaces up to the
target width. -/
def pad_label_to_width (isMark : Char → Bool) (label : String)
    (target_width : ℕ) : String :=
  let (cs, cw) := padScan isMark target_width label.data 0
  String.mk cs ++ String.mk (List.replicate (target_width - cw) ' ')

/-- Python `int(x)`: truncation toward zero. -/
def pyInt (q : ℚ) : ℤ :=
  if 0 ≤ q then ⌊q⌋ else ⌈q⌉

/-- Python `s[:n]` (slice with a possibly negative bound). -/
def pySliceTo (s : String) (n : ℤ) : String :=
  if 0 ≤ n then s.take n.toNat else s.take (s.length - n.natAbs)

/-- `"█" * filled_width + "░" * (bar_width - filled_width)` (lines 272–273). -/
def bar_string (percent : ℚ) (bar_width : ℕ) : String :=
  let filled_width : ℤ := pyInt (percent / 100 * (bar_width : ℚ))
  String.mk (List.replicate filled_width.toNat '█') ++
    String.mk (List.replicate ((bar_width : ℤ) - filled_width).toNat '░')

/-- Number of cells drawn with one glyph in a rendered bar. -/
def glyphCount (c : Char) (s : String) : ℕ :=
  s.data.count c

/-- One curses draw call with its screen position and payload. -/
inductive DrawOp where
  | addstr (y x : ℤ) (s : String)
  | addch (y x : ℤ) (c : Char)
  deriving DecidableEq

/-- Whether a draw call succeeds; `false` models `curses.error` being raised
at that call (e.g. a race with a terminal resize). -/
abbrev CanDraw := DrawOp → Bool

/-- Run the draw calls of one `try:` block in order: each successful op is
appended to the trace; the first failing op raises, so the rest of the block
is skipped. Returns the trace so far and whether the block completed. -/
def runOps (canDraw : CanDraw) (acc : List DrawOp) :
    List DrawOp → List DrawOp × Bool
  | [] => (acc, true)
  | op :: rest =>
    if canDraw op then runOps canDraw (acc ++ [op]) rest
    else (acc, false)

/-- The external `f"{x:5.1f}"` / `f"{x:.1f}"` / `strftime` formatters used by
the dashboard, as explicit parameters. -/
structure Fmt where
  pct51 : ℚ → String
  pct1 : ℚ → String
  hms : ℚ → String
  mdhms : ℚ → String
  ymdhms : ℚ → String

/-- Spaces of a given (possibly negative) width, `" " * n`. -/
def spacesZ (n : ℤ) : String :=
  String.mk (List.replicate n.toNat ' ')

/-- The detail line built at lines 313–321: pad to the interior width or
truncate to fit. -/
def detail_line_str (details : String) (content_width : ℤ) : String :=
  let detail_template := "    " ++ details
  let detail_length : ℤ := detail_template.length
  if detail_length ≤ content_width then
    "│" ++ detail_template ++ spacesZ (content_width - detail_length) ++ "│"
  else
    "│" ++ pySliceTo detail_template content_width ++ "│"

/-- `draw_progress_bar`: emits the draw calls of one bar row (and its
optional detail line). The bar row's calls share one `try:` block; the
detail line has its own. Returns the performed calls; every `curses.error`
is swallowed inside this function. -/
def draw_progress_bar (canDraw : CanDraw) (fmt : Fmt) (isMark : Char → Bool)
    (y x : ℤ) (bar_width : ℕ) (percent : ℚ) (label : String)
    (details : String) (total_width : ℤ) : List DrawOp :=
  let bar := bar_string percent bar_width
  let left_edge := x
  let right_edge := x + total_width - 1
  let content_start := left_edge + 1
  let content_width := total_width - 2
  let label_text := pad_label_to_width isMark label LABEL_AREA_WIDTH
  let percent_text := fmt.pct51 percent ++ "%"
  let label_x := content_start + 1
  let bar_x := label_x + (LABEL_AREA_WIDTH : ℤ) + 1
  let percent_x := right_edge - (percent_text.length : ℤ) - 3
  let percent_x' := max percent_x (bar_x + 1 + (bar_width : ℤ) + 2)
  let group :=
    [DrawOp.addch y left_edge '│',
     DrawOp.addch y right_edge '│',
     DrawOp.addstr y content_start (spacesZ content_width),
     DrawOp.addstr y label_x label_text,
     DrawOp.addstr y bar_x "[",
     DrawOp.addstr y (bar_x + 1) bar,
     DrawOp.addstr y (bar_x + 1 + (bar_width : ℤ)) "]",
     DrawOp.addstr y percent_x' percent_text]
  let t₁ := (runOps canDraw [] group).1
  if details.isEmpty then t₁
  else
    (runOps canDraw t₁
      [DrawOp.addstr (y + 1) x (detail_line_str details content_width)]).1

/-- The two unprotected `addstr` calls of the no-data branch (lines 359–360). -/
def noDataOps : List DrawOp :=
  [DrawOp.addstr 2 2 "No token_count events found in session files.",
   DrawOp.addstr 3 2 "Press 'q' to quit."]

/-- Horizontal rule of the panel: `"─" * content_width`. -/
def hrule (content_width : ℤ) : String :=
  String.mk (List.replicate content_width.toNat '─')

/-- The three draw calls of the header `try:` block (lines 375–377):
top border, centered title, separator. -/
def headerOps : List DrawOp :=
  let header := "CODEX RATELIMIT - LIVE USAGE MONITOR"
  let content_width : ℤ := 74 - 2
  let header_padding : ℤ := Int.fdiv (content_width - (header.length : ℤ)) 2
  [DrawOp.addstr 1 2 ("┌" ++ hrule content_width ++ "┐"),
   DrawOp.addstr 2 2
     ("│" ++ spacesZ header_padding ++ header ++
       spacesZ (content_width - header_padding - (header.length : ℤ)) ++ "│"),
   DrawOp.addstr 3 2 ("├" ++ hrule content_width ++ "┤")]

/-- The four draw calls of the footer `try:` block (lines 419–438):
separator, last-update line, refresh-interval line, bottom border. -/
def footerOps (fmt : Fmt) (y : ℤ) (current_time : ℚ)
    (refresh_interval : ℤ) : List DrawOp :=
  let content_width : ℤ := 74 - 2
  let luc₀ := " Last update: " ++ fmt.ymdhms current_time
  let luc := if (luc₀.length : ℤ) > content_width
    then pySliceTo luc₀ content_width else luc₀
  let rc₀ := " Refresh interval: " ++ toString refresh_interval ++
    "s | Press 'q' to quit"
  let rc := if (rc₀.length : ℤ) > content_width
    then pySliceTo rc₀ content_width else rc₀
  [DrawOp.addstr y 2 ("├" ++ hrule content_width ++ "┤"),
   DrawOp.addstr (y + 1) 2
     ("│" ++ luc ++ spacesZ (content_width - (luc.length : ℤ)) ++ "│"),
   DrawOp.addstr (y + 2) 2
     ("│" ++ rc ++ spacesZ (content_width - (rc.length : ℤ)) ++ "│"),
   DrawOp.addstr (y + 3) 2 ("└" ++ hrule content_width ++ "┘")]

/-- One data refresh of the TUI loop (`tui_main`, lines 353–442): clear, get
data, and redraw. The result is the trace of performed draw calls; `.error ()`
models an exception escaping `tui_main` (an unprotected `addstr` failing).
Terminal dimensions `max_y`/`max_x` were sampled by `getmaxyx` before the
loop; `data` is the value `get_rate_limit_data` returned for this tick. -/
def render_tick (canDraw : CanDraw) (fmt : Fmt) (isMark : Char → Bool)
    (maxY maxX : ℤ) (data : Option RLData) (refresh_interval : ℤ) :
    Except Unit (List DrawOp) :=
  match data with
  | none =>
    match runOps canDraw [] noDataOps with
    | (_, false) => .error ()
    | (t, true) => .ok t
  | some d =>
    let total_width : ℤ := 74
    if maxY < 20 ∨ maxX < 76 then
      let notice := DrawOp.addstr 1 2 "Terminal too small! Need at least 76x20"
      if canDraw notice then .ok [notice] else .error ()
    else
      match runOps canDraw [] headerOps with
      | (t, false) =>
        let errNotice := DrawOp.addstr 1 2 "Display error - terminal too small"
        if canDraw errNotice then .ok (t ++ [errNotice]) else .error ()
      | (t, true) =>
        let y₀ : ℤ := 4
        let (t₁, y₁) :=
          match d.primary with
          | none => (t, y₀)
          | some p =>
            let time_details := "Reset: " ++ fmt.hms p.reset_time ++
              (if p.outdated then " [OUTDATED]" else "")
            let tA := t ++ draw_progress_bar canDraw fmt isMark y₀ 2 BAR_WIDTH
              p.time_percent "5H SESSION" time_details total_width
            let usage_details := "Used: " ++ fmt.pct1 p.used_percent ++ "%"
            let tB := tA ++ draw_progress_bar canDraw fmt isMark (y₀ + 2) 2 BAR_WIDTH
              p.used_percent "5H USAGE" usage_details total_width
            (tB, y₀ + 4)
        let (t₂, y₂) :=
          match d.secondary with
          | none => (t₁, y₁)
          | some sw =>
            let time_details := "Reset: " ++ fmt.mdhms sw.reset_time ++
              (if sw.outdated then " [OUTDATED]" else "")
            let tA := t₁ ++ draw_progress_bar canDraw fmt isMark y₁ 2 BAR_WIDTH
              sw.time_percent "WEEK TIME" time_details total_width
            let usage_details := "Used: " ++ fmt.pct1 sw.used_percent ++ "%"
            let tB := tA ++ draw_progress_bar canDraw fmt isMark (y₁ + 2) 2 BAR_WIDTH
              sw.used_percent "WEEK USAGE" usage_details total_width
            (tB, y₁ + 4)
        .ok (runOps canDraw t₂ (footerOps fmt y₂ d.current_time refresh_interval)).1

/-- Invariant of every record the extractor retains with timestamp value
`t`: it is a JSON object whose `timestamp` field is a truthy (non-empty)
string that the ISO parser accepts, yielding `t`. -/
def GoodRec (iso : String → Option ℚ) (r : JsonVal) (t : ℚ) : Prop :=
  ∃ rfs s, r = JsonVal.obj rfs ∧ jlookup rfs "timestamp" = some (.str s) ∧
    truthy (.str s) = true ∧ iso (pyReplZ s) = some t

/-- The trace of a frame that did not crash (`[]` for a crashed frame). -/
def okTrace : Except Unit (List DrawOp) → List DrawOp
  | .ok t => t
  | .error _ => []

/-! ## Concrete sample inputs (used by witnesses and counterexamples) -/

/-- A concrete stand-in for `datetime.fromisoformat`, defined on the two
normalized timestamps used by the sample records. -/
def isoSample : String → Option ℚ := fun s =>
  if s == "2025-01-01T10:00:00+00:00" then some 1000
  else if s == "2025-01-01T11:00:00+00:00" then some 4600
  else none

/-- A full qualifying `token_count` record with the given raw timestamp. -/
def recSample (ts : String) : JsonVal :=
  .obj [("type", .str "event_msg"),
        ("payload", .obj
          [("type", .str "token_count"),
           ("info", .obj
             [("total_token_usage", .obj [("total_tokens", .num 5)]),
              ("last_token_usage", .obj [("total_tokens", .num 2)])]),
           ("rate_limits", .obj
             [("primary", .obj
               [("used_percent", .num 42.5),
                ("resets_in_seconds", .num 3600),
                ("window_minutes", .num 299)])])]),
        ("timestamp", .str ts)]

/-- A qualifying record whose payload has no `info` key. -/
def recNoInfo (ts : String) : JsonVal :=
  .obj [("type", .str "event_msg"),
        ("payload", .obj [("type", .str "token_count")]),
        ("timestamp", .str ts)]

/-- A qualifying record with usage info but no `rate_limits` key. -/
def recNoRL (ts : String) : JsonVal :=
  .obj [("type", .str "event_msg"),
        ("payload", .obj
          [("type", .str "token_count"),
           ("info", .obj
             [("total_token_usage", .obj [("total_tokens", .num 5)]),
              ("last_token_usage", .obj [("total_tokens", .num 2)])])]),
        ("timestamp", .str ts)]

/-- Two files on day 1 (daysBack = 1), nothing elsewhere; `fileB` holds the
later record. -/
def fsSample : DayFS := fun d =>
  if d = 1 then
    some [⟨"fileA", .ok [Line.json (recSample "2025-01-01T10:00:00Z")]⟩,
          ⟨"fileB", .ok [Line.json (recSample "2025-01-01T11:00:00Z")]⟩]
  else none

/-- One file on day 0 whose record has no `info`. -/
def fsNoInfo : DayFS := fun d =>
  if d = 0 then some [⟨"f", .ok [Line.json (recNoInfo "2025-01-01T10:00:00Z")]⟩]
  else none

/-- One file on day 0 whose record has usage info but no `rate_limits`. -/
def fsNoRL : DayFS := fun d =>
  if d = 0 then some [⟨"f", .ok [Line.json (recNoRL "2025-01-01T10:00:00Z")]⟩]
  else none

/-- Concrete stand-ins for the external text formatters. -/
def fmtSample : Fmt where
  pct51 := fun _ => " 50.0"
  pct1 := fun _ => "50.0"
  hms := fun _ => "10:00:00"
  mdhms := fun _ => "01-01 10:00:00"
  ymdhms := fun _ => "2025-01-01 10:00:00"

/-- A concrete processed window. -/
def rlwSample : RLWindow where
  used_percent := 42.5
  time_percent := 80
  reset_time := 4600
  outdated := false
  window_minutes := 299

/-- A concrete display-data record with only the primary window present. -/
def rldSample : RLData where
  file_path := "fileB"
  record_timestamp := 4600
  current_time := 5000
  total_usage := .null
  last_usage := .null
  primary := some rlwSample
  secondary := none

/-! ## Helper lemmas -/

theorem padScan_sum_le (isMark : Char → Bool) (t : ℕ) (l : List Char) :
    ∀ cw : ℕ, cw ≤ t →
      ((padScan isMark t l cw).1.map (char_width isMark)).sum + cw =
        (padScan isMark t l cw).2 ∧ (padScan isMark t l cw).2 ≤ t := by
  induction l with
  | nil => intro cw h; simpa [padScan] using h
  | cons c rest ih =>
    intro cw h
    simp only [padScan]
    split_ifs with h0 h1
    · have := ih cw h
      simp only [List.map_cons, List.sum_cons, h0]
      omega
    · simpa using h
    · have := ih (cw + char_width isMark c) (by omega)
      simp only [List.map_cons, List.sum_cons]
      omega

theorem string_mk_append_data (a b : List Char) :
    (String.mk a ++ String.mk b).data = a ++ b := by
  simp [String.data_append]

/-! ## C5: the label formatter always yields the exact target width -/

/-- **C5.** For every label `L` and target width `W`, the string produced by
`pad_label_to_width` has estimated display width exactly `W`: visible
characters are kept while the running width stays within `W`, Mark-category
(zero-width) characters are carried along free, and the result is
right-padded with spaces. The only fact needed about the external Unicode
classifier is that a plain space is not a combining mark. -/
theorem pad_label_exact_width (isMark : Char → Bool)
    (hsp : isMark ' ' = false) (label : String) (W : ℕ) :
    get_display_width isMark (pad_label_to_width isMark label W) = W := by
  obtain ⟨h1, h2⟩ := padScan_sum_le isMark W label.data 0 (Nat.zero_le W)
  have hspace : char_width isMark ' ' = 1 := by simp [char_width, hsp]
  unfold pad_label_to_width get_display_width
  rw [string_mk_append_data, List.map_append, List.sum_append, List.map_replicate,
    List.sum_replicate, hspace, smul_eq_mul, Nat.mul_one]
  omega

/-- Witness for C5 at a concrete label and width. -/
theorem pad_label_exact_width_witness :
    (fun _ : Char => false) ' ' = false ∧
      get_display_width (fun _ => false)
        (pad_label_to_width (fun _ => false) "5H SESSION" 12) = 12 :=
  ⟨rfl, pad_label_exact_width (fun _ => false) rfl "5H SESSION" 12⟩

/-! ## C6: filled-cell count of the progress bar -/

/-- **C6.** For every percentage `p ∈ [0, 100]` and bar width `w > 0`, the bar
built at lines 272–273 has exactly `⌊p/100·w⌋` filled glyphs, and filled plus
empty glyphs total exactly `w`. (Python floats are modelled as exact
rationals; `int()` truncation coincides with `⌊·⌋` on the nonnegative
quotient.) -/
theorem bar_filled_count (p : ℚ) (w : ℕ) (h0 : 0 ≤ p) (h100 : p ≤ 100)
    (hw : 0 < w) :
    (glyphCount '█' (bar_string p w) : ℤ) = ⌊p / 100 * (w : ℚ)⌋ ∧
      glyphCount '█' (bar_string p w) + glyphCount '░' (bar_string p w) = w := by
  have hx0 : (0 : ℚ) ≤ p / 100 * w := by positivity
  have hfl : pyInt (p / 100 * w) = ⌊p / 100 * (w : ℚ)⌋ := by simp [pyInt, hx0]
  have hle : p / 100 * w ≤ (w : ℚ) := by
    have hp1 : p / 100 ≤ 1 := by
      rw [div_le_one (by norm_num : (0 : ℚ) < 100)]; exact h100
    have hw0 : (0 : ℚ) ≤ (w : ℚ) := Nat.cast_nonneg w
    nlinarith
  have hfle : ⌊p / 100 * (w : ℚ)⌋ ≤ (w : ℤ) := by
    have := Int.floor_le_floor (α := ℚ) hle
    simpa using this
  have hfge : (0 : ℤ) ≤ ⌊p / 100 * (w : ℚ)⌋ := Int.floor_nonneg.mpr hx0
  unfold bar_string glyphCount
  rw [hfl, string_mk_append_data]
  simp only [List.count_append, List.count_replicate,
    if_pos (by decide : ('█' == '█') = true),
    if_pos (by decide : ('░' == '░') = true),
    if_neg (by decide : ¬(('░' == '█') = true)),
    if_neg (by decide : ¬(('█' == '░') = true))]
  constructor
  · omega
  · omega

/-- Witness for C6 at `p = 50`, `w = 10`. -/
theorem bar_filled_count_witness :
    (glyphCount '█' (bar_string 50 10) : ℤ) = ⌊(50 : ℚ) / 100 * (10 : ℚ)⌋ ∧
      glyphCount '█' (bar_string 50 10) + glyphCount '░' (bar_string 50 10) = 10 :=
  bar_filled_count 50 10 (by norm_num) (by norm_num) (by norm_num)

theorem bind_ok_unit {α β : Type} (a : α) (f : α → Except Unit β) :
    (Except.ok a : Except Unit α) >>= f = f a := rfl

/-- Computation of one window-processing block when the JSON fields carry
numbers (or are absent) and the effective window length is positive. -/
theorem process_window_eq (iso : String → Option ℚ) (now ts : ℚ)
    (W : List (String × JsonVal)) (defWin rs wm up : ℚ)
    (hrs : (jlookup W "resets_in_seconds").getD (.num 0) = .num rs)
    (hwm : (jlookup W "window_minutes").getD (.num defWin) = .num wm)
    (hup : (jlookup W "used_percent").getD (.num 0) = .num up)
    (hpos : 0 < wm) :
    process_window iso now ts (.obj W) defWin =
      .ok { used_percent := up
            time_percent := max 0 (min 100
              (if ts + rs < now then 100 else (wm * 60 - rs) / (wm * 60) * 100))
            reset_time := ts + rs
            outdated := decide (ts + rs < now)
            window_minutes := wm } := by
  have hws : (0 : ℚ) < wm * 60 := by positivity
  unfold process_window
  simp only [jgetE, bind_ok_unit, hrs, hwm, hup, asNum, calculate_reset_time]
  by_cases hlt : ts + rs < now
  · simp [hlt]
  · simp [hlt, hws]

/-! ## C1: derived timePercent of each rate-limit window -/

/-- **C1.** For a rate-limit window whose fields are numeric (with
`resets_in_seconds`/`used_percent` defaulting to 0 and `window_minutes` to
the block's default — `get_rate_limit_data` instantiates `defWin := 299` for
`primary` and `defWin := 10079` for `secondary`), the derived `time_percent`
is `clamp((wm*60 - rs) / (wm*60) * 100, 0, 100)`, overridden to 100 whenever
the reset instant `ts + rs` is strictly before `now`; `reset_time` is
`ts + rs` and `outdated` is `reset_time < now`. When `window_minutes` is
absent the effective `wm` is the block's default. -/
theorem window_time_percent_formula (iso : String → Option ℚ) (now ts : ℚ)
    (W : List (String × JsonVal)) (defWin rs wm up : ℚ)
    (hrs : (jlookup W "resets_in_seconds").getD (.num 0) = .num rs)
    (hwm : (jlookup W "window_minutes").getD (.num defWin) = .num wm)
    (hup : (jlookup W "used_percent").getD (.num 0) = .num up)
    (hpos : 0 < wm) :
    process_window iso now ts (.obj W) defWin =
      .ok { used_percent := up
            time_percent := if ts + rs < now then 100
              else max 0 (min 100 ((wm * 60 - rs) / (wm * 60) * 100))
            reset_time := ts + rs
            outdated := decide (ts + rs < now)
            window_minutes := wm } ∧
    (jlookup W "window_minutes" = none → wm = defWin) := by
  constructor
  · rw [process_window_eq iso now ts W defWin rs wm up hrs hwm hup hpos]
    by_cases hlt : ts + rs < now
    · simp [hlt]
    · simp [hlt]
  · intro hnone
    rw [hnone] at hwm
    simpa using hwm.symm

/-- Witness for C1: a window with `resets_in_seconds = 3600`,
`window_minutes` absent (so the primary default 299 applies), observed
while still fresh (`now = 1000`, `ts = 0`). -/
theorem window_time_percent_formula_witness :
    process_window (fun _ => none) 1000 0 (.obj [("resets_in_seconds", .num 3600)]) 299 =
      .ok { used_percent := 0
            time_percent := if (0 : ℚ) + 3600 < 1000 then 100
              else max 0 (min 100 ((299 * 60 - 3600) / (299 * 60) * 100))
            reset_time := 0 + 3600
            outdated := decide ((0 : ℚ) + 3600 < 1000)
            window_minutes := 299 } ∧
    (jlookup [("resets_in_seconds", JsonVal.num 3600)] "window_minutes" = none →
      (299 : ℚ) = 299) :=
  window_time_percent_formula (fun _ => none) 1000 0
    [("resets_in_seconds", .num 3600)] 299 3600 299 0 rfl rfl rfl (by norm_num)

/-! ## C7: resets_in_seconds = 0 boundary -/

/-- **C7.** A window with `resets_in_seconds = 0` that is not outdated at
observation time (`now ≤ ts + 0`) yields `reset_time = ts` (the record
timestamp) and `time_percent = 100`. -/
theorem reset_zero_boundary (iso : String → Option ℚ) (now ts : ℚ)
    (W : List (String × JsonVal)) (defWin wm up : ℚ)
    (hrs : jlookup W "resets_in_seconds" = some (.num 0))
    (hwm : (jlookup W "window_minutes").getD (.num defWin) = .num wm)
    (hup : (jlookup W "used_percent").getD (.num 0) = .num up)
    (hpos : 0 < wm)
    (hfresh : now ≤ ts) :
    process_window iso now ts (.obj W) defWin =
      .ok { used_percent := up
            time_percent := 100
            reset_time := ts
            outdated := false
            window_minutes := wm } := by
  have h0 : (jlookup W "resets_in_seconds").getD (.num 0) = .num 0 := by
    rw [hrs]; rfl
  rw [process_window_eq iso now ts W defWin 0 wm up h0 hwm hup hpos]
  have hnlt : ¬ ts < now := not_lt.mpr hfresh
  have hws : (0 : ℚ) < wm * 60 := by positivity
  have hdiv : wm * 60 / (wm * 60) * 100 = (100 : ℚ) := by
    rw [div_self (ne_of_gt hws)]; norm_num
  simp [hnlt, hdiv, hfresh]

/-- Witness for C7: `resets_in_seconds = 0`, `window_minutes = 299`,
`now = ts = 50`. -/
theorem reset_zero_boundary_witness :
    process_window (fun _ => none) 50 50
      (.obj [("resets_in_seconds", .num 0), ("window_minutes", .num 299)]) 299 =
      .ok { used_percent := 0
            time_percent := 100
            reset_time := 50
            outdated := false
            window_minutes := 299 } :=
  reset_zero_boundary (fun _ => none) 50 50
    [("resets_in_seconds", .num 0), ("window_minutes", .num 299)] 299 299 0
    rfl rfl rfl (by norm_num) le_rfl

/-! ## C3: extractor tolerance of malformed content -/

/-- **C3 counterexample.** The claim says every line that fails to decode as
a record is silently skipped and scanning continues, so a malformed line
followed by a valid qualifying record still yields that record. But a line
that is valid JSON of the wrong shape — here the bare number `3` — raises
`AttributeError` at `record.get`, which the line-level
`except json.JSONDecodeError` does not catch; the file-level handler
returns `None`, losing the valid record that follows (second conjunct:
the same valid line alone does yield the record). -/
theorem nondict_line_aborts_file :
    parse_session_file isoSample
      (.ok [Line.json (.num 3), Line.json (recSample "2025-01-01T10:00:00Z")]) =
      none ∧
    parse_session_file isoSample
      (.ok [Line.json (recSample "2025-01-01T10:00:00Z")]) =
      some (recSample "2025-01-01T10:00:00Z") :=
  ⟨rfl, rfl⟩

/-- **C3 (amended).** The extractor never raises: blank lines and lines that
fail JSON decoding are skipped and scanning continues with the rest of the
file, and a file-level I/O failure yields `None`. (Per the counterexample, a
line that decodes to JSON of the wrong shape instead aborts the whole file
scan with `None`.) -/
theorem extractor_skips_undecodable_lines (iso : String → Option ℚ) :
    (∀ (ls : List Line) (st : ExtState),
      procLines iso (Line.blank :: ls) st = procLines iso ls st) ∧
    (∀ (ls : List Line) (st : ExtState),
      procLines iso (Line.malformed :: ls) st = procLines iso ls st) ∧
    (∀ ls : List Line,
      parse_session_file iso (.ok (Line.malformed :: ls)) =
        parse_session_file iso (.ok ls)) ∧
    parse_session_file iso (.error ()) = none :=
  ⟨fun _ _ => rfl, fun _ _ => rfl, fun _ => rfl, rfl⟩

/-! ## Extractor and locator invariants -/

theorem updExt_cases (st : ExtState) (t : ℚ) (r : JsonVal) :
    updExt st t r = st ∨ updExt st t r = some (t, r) := by
  cases st with
  | none => right; rfl
  | some x =>
    obtain ⟨t₀, r₀⟩ := x
    by_cases h : t > t₀
    · right; simp [updExt, h]
    · left; simp [updExt, h]

theorem procLine_inv (iso : String → Option ℚ) (st : ExtState) (l : Line)
    (st' : ExtState) (h : procLine iso st l = .ok st')
    (hst : ∀ t r, st = some (t, r) → GoodRec iso r t) :
    ∀ t r, st' = some (t, r) → GoodRec iso r t := by
  cases l with
  | blank => cases h; exact hst
  | malformed => cases h; exact hst
  | json v =>
    cases v with
    | null => exact absurd h (by simp [procLine])
    | bool b => exact absurd h (by simp [procLine])
    | num q => exact absurd h (by simp [procLine])
    | str s => exact absurd h (by simp [procLine])
    | arr es => exact absurd h (by simp [procLine])
    | obj fs =>
      unfold procLine at h
      repeat' split at h
      all_goals try exact Except.noConfusion h
      all_goals try (cases h; exact hst)
      · cases h
        intro t' r' hmem
        rename_i b1 fs1 heqJson htype b2 pfs heqPay htok b3 b4 sstr hlk htr b5 tq hiso
        obtain rfl : fs = fs1 := by simpa using heqJson
        rcases updExt_cases st tq (.obj fs) with hc | hc
        · rw [hc] at hmem
          exact hst t' r' hmem
        · rw [hc] at hmem
          injection hmem with hp
          injection hp with hp1 hp2
          exact ⟨fs, sstr, hp2.symm, hlk, htr, hp1 ▸ hiso⟩

theorem procLines_inv (iso : String → Option ℚ) (ls : List Line) :
    ∀ (st st' : ExtState), procLines iso ls st = .ok st' →
      (∀ t r, st = some (t, r) → GoodRec iso r t) →
      ∀ t r, st' = some (t, r) → GoodRec iso r t := by
  induction ls with
  | nil =>
    intro st st' h hst
    cases h
    exact hst
  | cons l ls ih =>
    intro st st' h hst
    unfold procLines at h
    rcases hl : procLine iso st l with e | st₁ <;> rw [hl] at h
    · exact Except.noConfusion h
    · exact ih st₁ st' h (procLine_inv iso st l st₁ hl hst)

theorem parse_good (iso : String → Option ℚ) (content : Except Unit (List Line))
    (r : JsonVal) (h : parse_session_file iso content = some r) :
    ∃ t, GoodRec iso r t := by
  unfold parse_session_file at h
  rcases content with e | lines
  · simp at h
  · rcases hp : procLines iso lines none with e | st <;> simp only [hp] at h
    · simp at h
    · rcases st with _ | ⟨t, r₀⟩
      · simp at h
      · obtain rfl : r₀ = r := by simpa using h
        exact ⟨t, procLines_inv iso lines none (some (t, r₀)) hp
          (by intro _ _ hc; exact Option.noConfusion hc) t r₀ rfl⟩

theorem fileCand_of_good (iso : String → Option ℚ) (f : RFile) (r : JsonVal)
    (t : ℚ) (hp : parse_session_file iso f.content = some r)
    (hg : GoodRec iso r t) :
    fileCand iso f = .ok (some (f.path, t, r)) := by
  obtain ⟨rfs, s, rfl, hlk, htr, hiso⟩ := hg
  unfold fileCand
  rw [hp]
  simp [hlk, htr, hiso]

theorem fileCand_some_inv (iso : String → Option ℚ) (f : RFile) (p : String)
    (t : ℚ) (r : JsonVal) (h : fileCand iso f = .ok (some (p, t, r))) :
    p = f.path ∧ parse_session_file iso f.content = some r ∧ GoodRec iso r t := by
  unfold fileCand at h
  rcases hp : parse_session_file iso f.content with _ | r₀ <;> simp only [hp] at h
  · simp at h
  · rcases r₀ with _ | b | q | s | es | rfs
    all_goals try (solve | simp at h)
    rcases hlk : jlookup rfs "timestamp" with _ | ts <;> simp only [hlk] at h
    · simp at h
    · by_cases htr : truthy ts = true
      · rw [if_pos htr] at h
        rcases ts with _ | b | q | s | es | ofs
        all_goals try (solve | simp at h)
        rcases hiso : iso (pyReplZ s) with _ | tv <;> simp only [hiso] at h
        · simp at h
        · obtain ⟨rfl, rfl, rfl⟩ : p = f.path ∧ t = tv ∧ r = .obj rfs := by
            have h1 := Option.some.inj (Except.ok.inj h)
            exact ⟨congrArg Prod.fst h1.symm,
              (congrArg (fun x => x.2.1) h1).symm,
              (congrArg (fun x => x.2.2) h1).symm⟩
          exact ⟨rfl, rfl, rfs, s, rfl, hlk, htr, hiso⟩
      · rw [if_neg htr] at h
        simp at h

theorem updLoc_some (st c : Option (String × ℚ × JsonVal))
    (x : String × ℚ × JsonVal) (h : updLoc st c = some x) :
    st = some x ∨ c = some x := by
  rcases c with _ | ⟨p, t, r⟩
  · left; exact h
  · rcases st with _ | ⟨p₀, t₀, r₀⟩
    · right; exact h
    · by_cases hgt : t > t₀
      · right; simpa [updLoc, hgt] using h
      · left; simpa [updLoc, hgt] using h

theorem updLoc_fst_le (st c : Option (String × ℚ × JsonVal))
    (p₀ : String) (t₀ : ℚ) (r₀ : JsonVal) (h : st = some (p₀, t₀, r₀)) :
    ∃ p t r, updLoc st c = some (p, t, r) ∧ t₀ ≤ t := by
  subst h
  rcases c with _ | ⟨p, t, r⟩
  · exact ⟨p₀, t₀, r₀, rfl, le_refl t₀⟩
  · by_cases hgt : t > t₀
    · exact ⟨p, t, r, by simp [updLoc, hgt], le_of_lt hgt⟩
    · exact ⟨p₀, t₀, r₀, by simp [updLoc, hgt], le_refl t₀⟩

theorem updLoc_snd_le (st : Option (String × ℚ × JsonVal))
    (p' : String) (t' : ℚ) (r' : JsonVal) :
    ∃ p t r, updLoc st (some (p', t', r')) = some (p, t, r) ∧ t' ≤ t := by
  rcases st with _ | ⟨p₀, t₀, r₀⟩
  · exact ⟨p', t', r', rfl, le_refl t'⟩
  · by_cases hgt : t' > t₀
    · exact ⟨p', t', r', by simp [updLoc, hgt], le_refl t'⟩
    · exact ⟨p₀, t₀, r₀, by simp [updLoc, hgt], le_of_not_lt hgt⟩

theorem searchDays_cons (iso : String → Option ℚ) (fs : DayFS) (d : ℕ)
    (ds : List ℕ) :
    searchDays iso fs (d :: ds) =
      match fs d with
      | none => searchDays iso fs ds
      | some files =>
        match procDayFiles iso files none with
        | .error e => .error e
        | .ok none => searchDays iso fs ds
        | .ok (some (p, _, r)) => .ok (some (p, r)) := rfl

theorem procDayFiles_some_src (iso : String → Option ℚ) (files : List RFile) :
    ∀ st x, procDayFiles iso files st = .ok (some x) →
      st = some x ∨ ∃ f ∈ files, fileCand iso f = .ok (some x) := by
  induction files with
  | nil =>
    intro st x h
    unfold procDayFiles at h
    exact Or.inl (Except.ok.inj h)
  | cons f rest ih =>
    intro st x h
    unfold procDayFiles at h
    rcases hc : fileCand iso f with e | c
    · simp only [hc] at h
      exact Except.noConfusion h
    · simp only [hc] at h
      rcases ih (updLoc st c) x h with hin | ⟨g, hg, hgc⟩
      · rcases updLoc_some st c x hin with h1 | h1
        · left; exact h1
        · right; exact ⟨f, List.mem_cons_self f rest, h1 ▸ hc⟩
      · right; exact ⟨g, List.mem_cons_of_mem f hg, hgc⟩

theorem procDayFiles_mono (iso : String → Option ℚ) (files : List RFile) :
    ∀ st p₀ t₀ r₀ res, st = some (p₀, t₀, r₀) →
      procDayFiles iso files st = .ok res →
      ∃ p t r, res = some (p, t, r) ∧ t₀ ≤ t := by
  induction files with
  | nil =>
    intro st p₀ t₀ r₀ res hst h
    unfold procDayFiles at h
    exact ⟨p₀, t₀, r₀, (Except.ok.inj h).symm.trans hst, le_refl t₀⟩
  | cons f rest ih =>
    intro st p₀ t₀ r₀ res hst h
    unfold procDayFiles at h
    rcases hc : fileCand iso f with e | c
    · simp only [hc] at h
      exact Except.noConfusion h
    · simp only [hc] at h
      obtain ⟨p₁, t₁, r₁, h1, hle⟩ := updLoc_fst_le st c p₀ t₀ r₀ hst
      obtain ⟨p, t, r, hres, hle2⟩ := ih (updLoc st c) p₁ t₁ r₁ res h1 h
      exact ⟨p, t, r, hres, le_trans hle hle2⟩

theorem procDayFiles_max (iso : String → Option ℚ) (files : List RFile) :
    ∀ st res f, f ∈ files → procDayFiles iso files st = .ok res →
      ∀ p2 t2 r2, fileCand iso f = .ok (some (p2, t2, r2)) →
        ∃ p t r, res = some (p, t, r) ∧ t2 ≤ t := by
  induction files with
  | nil => intro st res f hf; exact absurd hf (List.not_mem_nil f)
  | cons g rest ih =>
    intro st res f hf h p2 t2 r2 hfc
    unfold procDayFiles at h
    rcases hc : fileCand iso g with e | c
    · simp only [hc] at h
      exact Except.noConfusion h
    · simp only [hc] at h
      rcases List.mem_cons.mp hf with rfl | hmem
      · have hceq : c = some (p2, t2, r2) := by
          rw [hfc] at hc
          exact (Except.ok.inj hc).symm
        subst hceq
        obtain ⟨p₁, t₁, r₁, h1, hle⟩ := updLoc_snd_le st p2 t2 r2
        obtain ⟨p, t, r, hres, hle2⟩ :=
          procDayFiles_mono iso rest (updLoc st (some (p2, t2, r2))) p₁ t₁ r₁ res h1 h
        exact ⟨p, t, r, hres, le_trans hle hle2⟩
      · exact ih (updLoc st c) res f hmem h p2 t2 r2 hfc

theorem searchDays_all_none (iso : String → Option ℚ) (fs : DayFS)
    (ds : List ℕ) (h : ∀ d ∈ ds, dayResult iso fs d = .ok none) :
    searchDays iso fs ds = .ok none := by
  induction ds with
  | nil => rfl
  | cons d rest ih =>
    have hd := h d (List.mem_cons_self d rest)
    have ih2 := ih (fun e he => h e (List.mem_cons_of_mem d he))
    rw [searchDays_cons]
    unfold dayResult at hd
    rcases hfs : fs d with _ | files <;> simp only [hfs] at hd ⊢
    · exact ih2
    · rw [hd]
      exact ih2

theorem searchDays_skip_front (iso : String → Option ℚ) (fs : DayFS)
    (l₁ l₂ : List ℕ) (h : ∀ d ∈ l₁, dayResult iso fs d = .ok none) :
    searchDays iso fs (l₁ ++ l₂) = searchDays iso fs l₂ := by
  induction l₁ with
  | nil => rfl
  | cons d rest ih =>
    have hd := h d (List.mem_cons_self d rest)
    have ih2 := ih (fun e he => h e (List.mem_cons_of_mem d he))
    rw [List.cons_append, searchDays_cons]
    unfold dayResult at hd
    rcases hfs : fs d with _ | files <;> simp only [hfs] at hd ⊢
    · exact ih2
    · rw [hd]
      exact ih2

theorem searchDays_cons_hit (iso : String → Option ℚ) (fs : DayFS)
    (d : ℕ) (ds : List ℕ) (p : String) (t : ℚ) (r : JsonVal)
    (h : dayResult iso fs d = .ok (some (p, t, r))) :
    searchDays iso fs (d :: ds) = .ok (some (p, r)) := by
  rw [searchDays_cons]
  unfold dayResult at h
  rcases hfs : fs d with _ | files <;> simp only [hfs] at h ⊢
  · exact absurd (Except.ok.inj h) (by simp)
  · rw [h]

theorem searchDays_some_inv (iso : String → Option ℚ) (fs : DayFS) :
    ∀ (ds : List ℕ) (p : String) (r : JsonVal),
      searchDays iso fs ds = .ok (some (p, r)) →
      ∃ d ∈ ds, ∃ files t, fs d = some files ∧
        procDayFiles iso files none = .ok (some (p, t, r)) := by
  intro ds
  induction ds with
  | nil => intro p r h; simp [searchDays] at h
  | cons d rest ih =>
    intro p r h
    rw [searchDays_cons] at h
    rcases hfs : fs d with _ | files <;> simp only [hfs] at h
    · obtain ⟨d2, hd2, w⟩ := ih p r h
      exact ⟨d2, List.mem_cons_of_mem d hd2, w⟩
    · rcases hpd : procDayFiles iso files none with e | st
      · simp only [hpd] at h
        exact Except.noConfusion h
      · rcases st with _ | ⟨p₁, t₁, r₁⟩ <;> simp only [hpd] at h
        · obtain ⟨d2, hd2, w⟩ := ih p r h
          exact ⟨d2, List.mem_cons_of_mem d hd2, w⟩
        · obtain ⟨rfl, rfl⟩ : p₁ = p ∧ r₁ = r := by
            have h1 := Option.some.inj (Except.ok.inj h)
            exact ⟨congrArg Prod.fst h1, congrArg Prod.snd h1⟩
          exact ⟨d, List.mem_cons_self d rest, files, t₁, hfs, hpd⟩

theorem range_decomp (d₀ n : ℕ) (h : d₀ < n) :
    ∃ L, List.range n = List.range d₀ ++ d₀ :: L := by
  obtain ⟨k, rfl⟩ : ∃ k, n = d₀ + (k + 1) := ⟨n - d₀ - 1, by omega⟩
  refine ⟨List.map (fun i => d₀ + (i + 1)) (List.range k), ?_⟩
  rw [List.range_add, List.range_succ_eq_map]
  simp

/-- Any record the locator returns re-parses: combined source invariant. -/
theorem find_some_good (iso : String → Option ℚ) (fs : DayFS) (p : String)
    (r : JsonVal)
    (h : find_latest_token_count_record iso fs = .ok (some (p, r))) :
    ∃ t, GoodRec iso r t ∧ recordTimestampE iso r = .ok t := by
  obtain ⟨d, _, files, t, hfs, hpd⟩ :=
    searchDays_some_inv iso fs (List.range 30) p r h
  rcases procDayFiles_some_src iso files none (p, t, r) hpd with hst | ⟨f, _, hfc⟩
  · exact Option.noConfusion hst
  · obtain ⟨-, -, hg⟩ := fileCand_some_inv iso f p t r hfc
    refine ⟨t, hg, ?_⟩
    obtain ⟨rfs, s, rfl, hlk, -, hiso⟩ := hg
    unfold recordTimestampE
    simp only [hlk, hiso]
/-! ## C10: locator-returned timestamps re-parse -/

/-- **C10.** Every `(filePath, record)` pair returned by the locator carries
a `timestamp` that is a truthy string the extractor already parsed (after
replacing `Z` with `+00:00`), so the unguarded re-parse performed by the
snapshot builder (line 210) and the report renderer (line 502) — modelled by
`recordTimestampE` — succeeds. -/
theorem locator_timestamp_reparses (iso : String → Option ℚ) (fs : DayFS)
    (p : String) (r : JsonVal)
    (h : find_latest_token_count_record iso fs = .ok (some (p, r))) :
    ∃ t, recordTimestampE iso r = .ok t ∧ GoodRec iso r t := by
  obtain ⟨t, hg, hts⟩ := find_some_good iso fs p r h
  exact ⟨t, hts, hg⟩

/-- Witness for C10 on the two-file sample filesystem. -/
theorem locator_timestamp_reparses_witness :
    ∃ t, recordTimestampE isoSample (recSample "2025-01-01T11:00:00Z") = .ok t ∧
      GoodRec isoSample (recSample "2025-01-01T11:00:00Z") t :=
  locator_timestamp_reparses isoSample fsSample "fileB"
    (recSample "2025-01-01T11:00:00Z") rfl

/-! ## C2: reverse-chronological short-circuit of the locator -/

/-- **C2.** The locator scans `daysBack = 0 .. 29`. If every day in the
window yields nothing (missing directory or no qualifying record), it
returns `NotFound` (`ok none`). Otherwise, for the most recent day `d₀` that
yields a record: the returned pair comes from one of that day's files, its
locator timestamp is maximal among all qualifying candidates of that day,
and no older day is consulted — the result is unchanged under arbitrary
modification of the filesystem beyond day `d₀`. -/
theorem locator_first_day_short_circuit (iso : String → Option ℚ) (fs : DayFS) :
    ((∀ d < 30, dayResult iso fs d = .ok none) →
      find_latest_token_count_record iso fs = .ok none) ∧
    (∀ d₀ p t r, d₀ < 30 →
      dayResult iso fs d₀ = .ok (some (p, t, r)) →
      (∀ d < d₀, dayResult iso fs d = .ok none) →
      find_latest_token_count_record iso fs = .ok (some (p, r)) ∧
      (∃ f ∈ (fs d₀).getD [], f.path = p ∧
        fileCand iso f = .ok (some (p, t, r))) ∧
      (∀ f ∈ (fs d₀).getD [], ∀ p2 t2 r2,
        fileCand iso f = .ok (some (p2, t2, r2)) → t2 ≤ t) ∧
      (∀ fs2 : DayFS, (∀ d ≤ d₀, fs2 d = fs d) →
        find_latest_token_count_record iso fs2 = .ok (some (p, r)))) := by
  constructor
  · intro hall
    exact searchDays_all_none iso fs _ (fun d hd => hall d (List.mem_range.mp hd))
  · intro d₀ p t r hd30 hhit hprev
    obtain ⟨L, hL⟩ := range_decomp d₀ 30 hd30
    have hfind : find_latest_token_count_record iso fs = .ok (some (p, r)) := by
      unfold find_latest_token_count_record
      rw [hL, searchDays_skip_front iso fs _ _
        (fun d hd => hprev d (List.mem_range.mp hd))]
      exact searchDays_cons_hit iso fs d₀ L p t r hhit
    refine ⟨hfind, ?_, ?_, ?_⟩
    · rcases hfs : fs d₀ with _ | files
      · unfold dayResult at hhit
        rw [hfs] at hhit
        exact absurd (Except.ok.inj hhit) (by simp)
      · unfold dayResult at hhit
        simp only [hfs] at hhit
        rcases procDayFiles_some_src iso files none (p, t, r) hhit with hP | ⟨f, hfmem, hfc⟩
        · exact Option.noConfusion hP
        · obtain ⟨hpath, -, -⟩ := fileCand_some_inv iso f p t r hfc
          exact ⟨f, by simpa using hfmem, hpath.symm, hfc⟩
    · intro f hfmem p2 t2 r2 hfc
      rcases hfs : fs d₀ with _ | files
      · rw [hfs] at hfmem
        simp at hfmem
      · rw [hfs] at hfmem
        simp only [Option.getD_some] at hfmem
        unfold dayResult at hhit
        simp only [hfs] at hhit
        obtain ⟨p3, t3, r3, hres, hle⟩ :=
          procDayFiles_max iso files none (some (p, t, r)) f
            hfmem hhit p2 t2 r2 hfc
        obtain rfl : t3 = t := by
          have h1 := Option.some.inj hres
          exact (congrArg (fun x => x.2.1) h1).symm
        exact hle
    · intro fs2 hagree
      unfold find_latest_token_count_record
      rw [hL]
      have hprev2 : ∀ d ∈ List.range d₀, dayResult iso fs2 d = .ok none := by
        intro d hd
        have hdlt := List.mem_range.mp hd
        have heq : dayResult iso fs2 d = dayResult iso fs d := by
          unfold dayResult
          rw [hagree d (le_of_lt hdlt)]
        rw [heq]
        exact hprev d hdlt
      rw [searchDays_skip_front iso fs2 _ _ hprev2]
      have hhit2 : dayResult iso fs2 d₀ = .ok (some (p, t, r)) := by
        have heq : dayResult iso fs2 d₀ = dayResult iso fs d₀ := by
          unfold dayResult
          rw [hagree d₀ (le_refl d₀)]
        rw [heq]
        exact hhit
      exact searchDays_cons_hit iso fs2 d₀ L p t r hhit2

/-- Witness for C2: day 0 is empty, day 1 holds two files; the locator
returns day 1's later-stamped file (`fileB`). -/
theorem locator_first_day_short_circuit_witness :
    find_latest_token_count_record isoSample fsSample =
      .ok (some ("fileB", recSample "2025-01-01T11:00:00Z")) :=
  ((locator_first_day_short_circuit isoSample fsSample).2 1 "fileB" 4600
    (recSample "2025-01-01T11:00:00Z") (by norm_num) rfl
    (fun d hd => by
      obtain rfl : d = 0 := by omega
      rfl)).1

theorem bind_err_unit {α β : Type} (f : α → Except Unit β) :
    (Except.error () : Except Unit α) >>= f = Except.error () := rfl

theorem bind_any_err {α β : Type} (e : Except Unit α) :
    (e >>= fun _ => (Except.error () : Except Unit β)) = Except.error () := by
  cases e <;> rfl

/-! ## C4: required fields are hard failures, rate-limit fields optional -/

/-- **C4.** For a record selected by the locator (whose `payload` is the
object `P`): a missing `info`, a missing `total_token_usage`, or a missing
`last_token_usage` makes `get_rate_limit_data` raise (`.error ()`, the
exception propagating to the caller); whereas a missing `rate_limits`, or a
`rate_limits` object without `primary`/`secondary`, is not an error — the
snapshot is built with both windows absent. -/
theorem snapshot_required_fields (iso : String → Option ℚ) (now : ℚ)
    (fs : DayFS) (p : String) (r : JsonVal) (P : List (String × JsonVal))
    (hloc : find_latest_token_count_record iso fs = .ok (some (p, r)))
    (hpay : jindexE r "payload" = .ok (.obj P)) :
    (jlookup P "info" = none → get_rate_limit_data iso now fs = .error ()) ∧
    (∀ I, jlookup P "info" = some (.obj I) →
      jlookup I "total_token_usage" = none →
      get_rate_limit_data iso now fs = .error ()) ∧
    (∀ I tu, jlookup P "info" = some (.obj I) →
      jlookup I "total_token_usage" = some tu →
      jlookup I "last_token_usage" = none →
      get_rate_limit_data iso now fs = .error ()) ∧
    (∀ I tu lu t, jlookup P "info" = some (.obj I) →
      jlookup I "total_token_usage" = some tu →
      jlookup I "last_token_usage" = some lu →
      jlookup P "rate_limits" = none →
      recordTimestampE iso r = .ok t →
      get_rate_limit_data iso now fs =
        .ok (some { file_path := p, record_timestamp := t, current_time := now,
                    total_usage := tu, last_usage := lu,
                    primary := none, secondary := none })) ∧
    (∀ I tu lu t RL, jlookup P "info" = some (.obj I) →
      jlookup I "total_token_usage" = some tu →
      jlookup I "last_token_usage" = some lu →
      jlookup P "rate_limits" = some (.obj RL) →
      jlookup RL "primary" = none →
      jlookup RL "secondary" = none →
      recordTimestampE iso r = .ok t →
      get_rate_limit_data iso now fs =
        .ok (some { file_path := p, record_timestamp := t, current_time := now,
                    total_usage := tu, last_usage := lu,
                    primary := none, secondary := none })) := by
  refine ⟨?_, ?_, ?_, ?_, ?_⟩
  · intro h1
    simp only [get_rate_limit_data, hloc, bind_ok_unit]
    rw [hpay]
    simp [jindexE, jgetE, h1, bind_ok_unit, bind_err_unit]
  · intro I hI h2
    simp only [get_rate_limit_data, hloc, bind_ok_unit]
    rw [hpay]
    simp [jindexE, jgetE, hI, h2, bind_ok_unit, bind_err_unit, bind_any_err]
  · intro I tu hI htu h3
    simp only [get_rate_limit_data, hloc, bind_ok_unit]
    rw [hpay]
    simp [jindexE, jgetE, hI, htu, h3, bind_ok_unit, bind_err_unit, bind_any_err]
  · intro I tu lu t hI htu hlu hRL ht
    simp only [get_rate_limit_data, hloc, bind_ok_unit]
    rw [hpay]
    simp [jindexE, jgetE, hI, htu, hlu, hRL, ht, truthy, bind_ok_unit, bind_err_unit]
    simp [jlookup]
  · intro I tu lu t RL hI htu hlu hRL hpr hse ht
    simp only [get_rate_limit_data, hloc, bind_ok_unit]
    rw [hpay]
    simp [jindexE, jgetE, hI, htu, hlu, hRL, hpr, hse, ht, truthy, bind_ok_unit,
      bind_err_unit]

/-- Witness for C4: a record without `info` raises; a record with usage info
but no `rate_limits` builds a snapshot with both windows absent. -/
theorem snapshot_required_fields_witness :
    get_rate_limit_data isoSample 5000 fsNoInfo = .error () ∧
    get_rate_limit_data isoSample 5000 fsNoRL =
      .ok (some { file_path := "f", record_timestamp := 1000,
                  current_time := 5000,
                  total_usage := .obj [("total_tokens", .num 5)],
                  last_usage := .obj [("total_tokens", .num 2)],
                  primary := none, secondary := none }) :=
  ⟨(snapshot_required_fields isoSample 5000 fsNoInfo "f"
      (recNoInfo "2025-01-01T10:00:00Z")
      [("type", .str "token_count")] rfl rfl).1 rfl,
   ((snapshot_required_fields isoSample 5000 fsNoRL "f"
      (recNoRL "2025-01-01T10:00:00Z")
      [("type", .str "token_count"),
       ("info", .obj
         [("total_token_usage", .obj [("total_tokens", .num 5)]),
          ("last_token_usage", .obj [("total_tokens", .num 2)])])] rfl rfl).2.2.2.1
      [("total_token_usage", .obj [("total_tokens", .num 5)]),
       ("last_token_usage", .obj [("total_tokens", .num 2)])]
      (.obj [("total_tokens", .num 5)]) (.obj [("total_tokens", .num 2)])
      1000 rfl rfl rfl rfl rfl)⟩

/-! ## C8: undersized terminal short-circuits the panel -/

/-- **C8.** On a refresh tick with data present, if the terminal sampled by
`getmaxyx` is below the 76×20 minimum (e.g. 50×15), the renderer draws only
the "terminal too small" notice — no border, bar, or footer call is made —
and the tick completes without raising (the notice itself being drawable). -/
theorem tiny_terminal_notice (canDraw : CanDraw) (fmt : Fmt)
    (isMark : Char → Bool) (maxY maxX ri : ℤ) (d : RLData)
    (hsmall : maxY < 20 ∨ maxX < 76)
    (hdraw : canDraw (DrawOp.addstr 1 2 "Terminal too small! Need at least 76x20") = true) :
    render_tick canDraw fmt isMark maxY maxX (some d) ri =
      .ok [DrawOp.addstr 1 2 "Terminal too small! Need at least 76x20"] := by
  unfold render_tick
  simp only [if_pos hsmall, if_pos hdraw]

/-- Witness for C8 at terminal size 50×15 (scenario 6). -/
theorem tiny_terminal_notice_witness :
    render_tick (fun _ => true) fmtSample (fun _ => false) 15 50 (some rldSample) 10 =
      .ok [DrawOp.addstr 1 2 "Terminal too small! Need at least 76x20"] :=
  tiny_terminal_notice (fun _ => true) fmtSample (fun _ => false) 15 50 10
    rldSample (Or.inl (by norm_num)) rfl

/-! ## C9: granularity of draw-failure tolerance -/

/-- **C9 counterexample.** The claim says each draw operation is
independently fault-tolerant, so a single failed draw never prevents the
remaining elements of the frame. But the whole bar row shares one `try:`
block: with an oracle failing exactly the left border `addch` (second
conjunct: the label op itself is drawable), the label — drawn by the full
trace (first conjunct) — is missing from the row's trace (third conjunct). -/
theorem single_failed_border_aborts_row :
    DrawOp.addstr 4 4 "5H SESSION  " ∈
      draw_progress_bar (fun _ => true) fmtSample (fun _ => false) 4 2 BAR_WIDTH
        50 "5H SESSION" "Reset: 10:00:00" 74 ∧
    (fun op => decide (op ≠ DrawOp.addch 4 2 '│'))
      (DrawOp.addstr 4 4 "5H SESSION  ") = true ∧
    DrawOp.addstr 4 4 "5H SESSION  " ∉
      draw_progress_bar (fun op => decide (op ≠ DrawOp.addch 4 2 '│')) fmtSample
        (fun _ => false) 4 2 BAR_WIDTH 50 "5H SESSION" "Reset: 10:00:00" 74 := by
  refine ⟨?_, ?_, ?_⟩ <;> decide

theorem runOps_all_ok (canDraw : CanDraw) :
    ∀ (ops : List DrawOp) (acc : List DrawOp),
      (∀ op ∈ ops, canDraw op = true) →
      runOps canDraw acc ops = (acc ++ ops, true) := by
  intro ops
  induction ops with
  | nil => intro acc h; simp [runOps]
  | cons op rest ih =>
    intro acc h
    unfold runOps
    rw [if_pos (h op (List.mem_cons_self op rest)),
      ih (acc ++ [op]) (fun o ho => h o (List.mem_cons_of_mem op ho))]
    simp

theorem runOps_mem_of_all (canDraw : CanDraw) (ops acc : List DrawOp)
    (op : DrawOp) (hall : ∀ o ∈ ops, canDraw o = true) (hop : op ∈ ops) :
    op ∈ (runOps canDraw acc ops).1 := by
  rw [runOps_all_ok canDraw ops acc hall]
  exact List.mem_append_right acc hop

/-- **C9 (amended).** Draw failures are swallowed per `try:` block, not per
operation. Within one bar row a failure skips only the rest of that row's
block: the detail line below it is still attempted (first conjunct, for any
oracle). At frame level, when the header block succeeds, the frame never
raises regardless of failures inside the bar rows, and the footer block is
still attempted — if its operations are drawable they appear in the trace
(second conjunct). A failed header block instead aborts the panel for the
tick after a display-error notice. -/
theorem draw_failures_swallowed_per_block :
    (∀ (canDraw : CanDraw) (fmt : Fmt) (isMark : Char → Bool)
      (y x : ℤ) (bw : ℕ) (percent : ℚ) (label details : String) (tw : ℤ),
      details.isEmpty = false →
      canDraw (DrawOp.addstr (y + 1) x (detail_line_str details (tw - 2))) = true →
      DrawOp.addstr (y + 1) x (detail_line_str details (tw - 2)) ∈
        draw_progress_bar canDraw fmt isMark y x bw percent label details tw) ∧
    (∀ (canDraw : CanDraw) (fmt : Fmt) (isMark : Char → Bool)
      (maxY maxX ri : ℤ) (d : RLData),
      ¬(maxY < 20 ∨ maxX < 76) →
      (∀ op ∈ headerOps, canDraw op = true) →
      render_tick canDraw fmt isMark maxY maxX (some d) ri ≠ .error () ∧
      (∀ op ∈ footerOps fmt
          (4 + (if d.primary.isSome then 4 else 0) +
            (if d.secondary.isSome then 4 else 0)) d.current_time ri,
        (∀ op2 ∈ footerOps fmt
            (4 + (if d.primary.isSome then 4 else 0) +
              (if d.secondary.isSome then 4 else 0)) d.current_time ri,
          canDraw op2 = true) →
        op ∈ okTrace (render_tick canDraw fmt isMark maxY maxX (some d) ri))) := by
  constructor
  · intro canDraw fmt isMark y x bw percent label details tw hne hcd
    unfold draw_progress_bar
    rw [hne]
    simp only [Bool.false_eq_true, if_false]
    rw [runOps_all_ok canDraw _ _ (by simpa using hcd)]
    simp
  · intro canDraw fmt isMark maxY maxX ri d hns hH
    rcases d with ⟨fp, rts, cur, tot, lst, pri, sec⟩
    rcases pri with _ | p <;> rcases sec with _ | sw <;>
      · simp only [render_tick, if_neg hns, runOps_all_ok canDraw headerOps [] hH]
        refine ⟨by simp, ?_⟩
        intro op hop hFok
        simp only [okTrace]
        exact runOps_mem_of_all canDraw _ _ op hFok hop

/-- Witness for C9's amended theorem: with every draw succeeding, the footer
separator of a primary-only frame (at row 8) appears in the trace. -/
theorem draw_failures_swallowed_per_block_witness :
    DrawOp.addstr 4 2 (detail_line_str "Reset: 10:00:00" (74 - 2)) ∈
      draw_progress_bar (fun _ => true) fmtSample (fun _ => false) 3 2 BAR_WIDTH
        50 "5H SESSION" "Reset: 10:00:00" 74 ∧
    render_tick (fun _ => true) fmtSample (fun _ => false) 24 80
        (some rldSample) 10 ≠ .error () :=
  ⟨(draw_failures_swallowed_per_block).1 (fun _ => true) fmtSample
      (fun _ => false) 3 2 BAR_WIDTH 50 "5H SESSION" "Reset: 10:00:00" 74
      rfl rfl,
   ((draw_failures_swallowed_per_block).2 (fun _ => true) fmtSample
      (fun _ => false) 24 80 10 rldSample (by norm_num)
      (fun op hop => rfl)).1⟩

end Ratelimit
